import Mathlib

/-!
# Verification of the task-store CRUD module

A shallow embedding of the data-access module (src/app/actions.ts) of the
to-do list application, together with the presentation handlers from the
page component, and proofs of the specified properties.

The store is modelled as follows.

* A row of the SQL table
  (id SERIAL NOT NULL, created_at timestamp NOT NULL,
   status VARCHAR(255) NOT NULL default IN_PROGRESS,
   title VARCHAR(1024) NOT NULL, PRIMARY KEY (id))
  is a structure with a natural-number id, a natural-number timestamp
  (timestamps are abstracted as naturals; only their order matters),
  and string status/title columns.  The status column is a plain string
  in the store, as in the DDL; its membership in the two-value
  enumeration is proved as an invariant, not assumed by typing.
* The SERIAL sequence is the nextId field of the table; CREATE TABLE
  starts it at 1, as PostgreSQL does.
* An absent table is the value none : Option Table; CREATE TABLE IF NOT
  EXISTS maps none to a fresh empty table and some t to t itself.
* The VARCHAR(1024) bound on title is modelled on the statements that
  assign into that column: an oversized value makes the statement fail
  with a store error and leave the rows unchanged, per SQL semantics.
  (The side effect of the SERIAL sequence on a failed insert is not
  modelled; no specified property mentions it.)
* ORDER BY created_at DESC LIMIT 100 is modelled as a sort by the
  decidable total preorder "later first" followed by List.take 100.
-/

namespace App

/-- One row of the tasks table. -/
structure Row where
  id : Nat
  created_at : Nat
  status : String
  title : String
deriving DecidableEq, Repr

/-- The tasks table: its rows in insertion order, and the state of the
SERIAL sequence backing the id column. -/
structure Table where
  rows : List Row
  nextId : Nat
deriving DecidableEq, Repr

/-- The Task record exchanged with the presentation layer
(type Task in actions.ts / page.tsx).  Its status field is constrained
by the TypeScript union type to the two enumeration values. -/
inductive Status where
  | IN_PROGRESS
  | COMPLETE
deriving DecidableEq, Repr

/-- The string the store receives for a Status value. -/
def Status.toDbString : Status → String
  | .IN_PROGRESS => "IN_PROGRESS"
  | .COMPLETE => "COMPLETE"

/-- The Task value passed to updateTaskInDatabase: id, title and status
(the id values flowing through the page are the store-assigned ids). -/
structure Task where
  id : Nat
  title : String
  status : Status
deriving DecidableEq, Repr

/-- CREATE TABLE IF NOT EXISTS tasks (...): a no-op when the table
exists, otherwise a fresh empty table with the SERIAL sequence at 1. -/
def tableCreationIfDoesNotExist : Option Table → Table
  | some t => t
  | none => { rows := [], nextId := 1 }

/-- The error a statement raises when a value exceeds VARCHAR(1024). -/
def varcharError : String := "value too long for type character varying(1024)"

/-- addNewTaskToDatabase(newTask): ensure the schema, then
INSERT INTO tasks(created_at, status, title) VALUES(NOW(), IN_PROGRESS, $1).
The parameter now is the server clock value NOW().  Returns the new
table state and the error, if any, of the insert statement. -/
def addNewTaskToDatabase (newTask : String) (now : Nat) (db : Option Table) :
    Table × Option String :=
  let t := tableCreationIfDoesNotExist db
  if newTask.length ≤ 1024 then
    ({ rows := t.rows ++ [{ id := t.nextId, created_at := now,
                            status := "IN_PROGRESS", title := newTask }],
       nextId := t.nextId + 1 }, none)
  else
    (t, some varcharError)

/-- The comparison of ORDER BY created_at DESC: a row sorts before
another when its created_at is at least as large. -/
def createdDesc (a b : Row) : Prop := b.created_at ≤ a.created_at

instance : DecidableRel createdDesc :=
  fun a b => inferInstanceAs (Decidable (b.created_at ≤ a.created_at))

instance : IsTotal Row createdDesc :=
  ⟨fun a b => Nat.le_total b.created_at a.created_at⟩

instance : IsTrans Row createdDesc :=
  ⟨fun _ _ _ hab hbc => Nat.le_trans hbc hab⟩

/-- getTasksFromDatabase(): ensure the schema, then
SELECT id, created_at, status, title FROM tasks
ORDER BY created_at DESC LIMIT 100.
Returns the table state after the schema step and the selected rows. -/
def getTasksFromDatabase (db : Option Table) : Table × List Row :=
  let t := tableCreationIfDoesNotExist db
  (t, (List.insertionSort createdDesc t.rows).take 100)

/-- updateTaskInDatabase(task): ensure the schema, then
UPDATE tasks SET status = $1, title = $2 WHERE id = $3.
The SET expressions are evaluated per matched row, so an oversized
title errors exactly when some row matches the id; on error the rows
are unchanged.  Returns the new table state and the statement error,
if any. -/
def updateTaskInDatabase (task : Task) (db : Option Table) :
    Table × Option String :=
  let t := tableCreationIfDoesNotExist db
  if t.rows.any (fun r => r.id == task.id) ∧ 1024 < task.title.length then
    (t, some varcharError)
  else
    ({ t with rows := t.rows.map (fun r =>
        if r.id = task.id then
          { r with status := task.status.toDbString, title := task.title }
        else r) }, none)

/-- deleteTaskFromDatabase(taskId): ensure the schema, then
DELETE FROM tasks WHERE id = $1. -/
def deleteTaskFromDatabase (taskId : Nat) (db : Option Table) : Table :=
  let t := tableCreationIfDoesNotExist db
  { t with rows := t.rows.filter (fun r => r.id ≠ taskId) }

example :
    addNewTaskToDatabase "Buy milk" 7 none =
      ({ rows := [{ id := 1, created_at := 7,
                    status := "IN_PROGRESS", title := "Buy milk" }],
         nextId := 2 }, none) := by decide

/-- A small sample table used in sanity-check examples below. -/
def sampleTable : Table where
  rows := [{ id := 1, created_at := 3, status := "IN_PROGRESS", title := "a" },
           { id := 2, created_at := 9, status := "COMPLETE", title := "b" },
           { id := 3, created_at := 5, status := "IN_PROGRESS", title := "c" }]
  nextId := 4

example :
    (getTasksFromDatabase (some sampleTable)).2 =
      [{ id := 2, created_at := 9, status := "COMPLETE", title := "b" },
       { id := 3, created_at := 5, status := "IN_PROGRESS", title := "c" },
       { id := 1, created_at := 3, status := "IN_PROGRESS", title := "a" }] := by
  decide

/-- One call into the data-access module, as issued by any caller:
the four exported operations of actions.ts. -/
inductive Op where
  | add (title : String) (now : Nat)
  | list
  | update (task : Task)
  | delete (id : Nat)
deriving DecidableEq, Repr

/-- The table state after one operation (list also ensures the schema,
so it too can change an absent store into an empty table). -/
def applyOp (op : Op) (db : Option Table) : Table :=
  match op with
  | .add title now => (addNewTaskToDatabase title now db).1
  | .list => (getTasksFromDatabase db).1
  | .update task => (updateTaskInDatabase task db).1
  | .delete i => deleteTaskFromDatabase i db

/-- The table state after a sequence of operations (ensuring the schema
at the end of an empty sequence, so the result is always a table). -/
def runOps : List Op → Option Table → Table
  | [], db => tableCreationIfDoesNotExist db
  | op :: ops, db => runOps ops (some (applyOp op db))

/-- The id discipline of the store: every row id is below the SERIAL
sequence value, and ids are strictly increasing in insertion order. -/
def TableInv (t : Table) : Prop :=
  (∀ r ∈ t.rows, r.id < t.nextId) ∧ t.rows.Pairwise (fun a b => a.id < b.id)

/-- The status discipline of the store: every stored status is one of
the two enumeration values. -/
def statusOk (t : Table) : Prop :=
  ∀ r ∈ t.rows, r.status = "IN_PROGRESS" ∨ r.status = "COMPLETE"

/-- The client-side state of the page component (page.tsx): the
newTaskTitle input field and the tasks array. -/
structure ClientState where
  newTaskTitle : String
  tasks : List Row
deriving DecidableEq, Repr

/-- The handleSubmit handler of page.tsx as a trace of the observable
(client, store) states after each awaited step, in program order:
await addNewTaskToDatabase(newTaskTitle); await getTasks();
setNewTaskTitle(empty).  A store error makes the first await reject,
aborting the handler there: no re-fetch runs and the input field is
never cleared, so the trace stops at the failed statement. -/
def handleSubmitTrace (c : ClientState) (db : Option Table) (now : Nat) :
    List (ClientState × Table) :=
  match addNewTaskToDatabase c.newTaskTitle now db with
  | (s1, some _) => [(c, s1)]
  | (s1, none) =>
      let c1 : ClientState := { c with tasks := (getTasksFromDatabase (some s1)).2 }
      let s2 := (getTasksFromDatabase (some s1)).1
      let c2 : ClientState := { c1 with newTaskTitle := "" }
      [(c, s1), (c1, s2), (c2, s2)]

/-- The updateTask handler of page.tsx as a trace of the observable
states after each awaited step: await updateTaskInDatabase(task);
await getTasks().  A store error on the update rejects the first
await, aborting the handler with no re-fetch. -/
def updateTaskHandlerTrace (c : ClientState) (task : Task) (db : Option Table) :
    List (ClientState × Table) :=
  match updateTaskInDatabase task db with
  | (s1, some _) => [(c, s1)]
  | (s1, none) =>
      let c1 : ClientState := { c with tasks := (getTasksFromDatabase (some s1)).2 }
      [(c, s1), (c1, (getTasksFromDatabase (some s1)).1)]

/-- The deleteTask handler of page.tsx as a trace of the observable
states after each awaited step: await deleteTaskFromDatabase(taskId);
await getTasks(). -/
def deleteTaskHandlerTrace (c : ClientState) (taskId : Nat) (db : Option Table) :
    List (ClientState × Table) :=
  let s1 := deleteTaskFromDatabase taskId db
  let c1 : ClientState := { c with tasks := (getTasksFromDatabase (some s1)).2 }
  [(c, s1), (c1, (getTasksFromDatabase (some s1)).1)]

/-- A title one character beyond the VARCHAR(1024) bound. -/
def longTitle : String := String.mk (List.replicate 1025 (Char.ofNat 97))

/-- A sample Task value used by witnesses. -/
def sampleUpdate : Task := { id := 2, title := "T", status := .COMPLETE }

/-- The table obtained from an absent store by n successive calls of
addNewTaskToDatabase with empty titles at server times 0, 1, ..., n-1
(the k-th insert happens at time k-1, so later inserts are later). -/
def addNTasks : Nat → Table
  | 0 => tableCreationIfDoesNotExist none
  | n + 1 => (addNewTaskToDatabase "" n (some (addNTasks n))).1

set_option maxRecDepth 10000 in
/-- C1: for every stored set of tasks, listTasks() returns at most 100
tasks, ordered by created_at descending; when all stored created_at
values are pairwise distinct the returned sequence is strictly
descending in created_at; and after inserting 150 tasks (at strictly
increasing server times) a list returns exactly 100 results, namely the
100 most recently created (created_at 149 down to 50, ids 150 down to
51). -/
theorem listTasks_cap_and_order (db : Option Table) :
    (getTasksFromDatabase db).2.length ≤ 100 ∧
    (getTasksFromDatabase db).2.Pairwise
      (fun a b => b.created_at ≤ a.created_at) ∧
    ((tableCreationIfDoesNotExist db).rows.Pairwise
        (fun a b => a.created_at ≠ b.created_at) →
      (getTasksFromDatabase db).2.Pairwise
        (fun a b => b.created_at < a.created_at)) ∧
    (getTasksFromDatabase (some (addNTasks 150))).2 =
      (List.range 100).map (fun i =>
        { id := 150 - i, created_at := 149 - i,
          status := "IN_PROGRESS", title := "" }) ∧
    (addNTasks 150).rows.length = 150 := by
  have hsorted : List.Sorted createdDesc
      (List.insertionSort createdDesc (tableCreationIfDoesNotExist db).rows) :=
    List.sorted_insertionSort createdDesc _
  refine ⟨?_, ?_, ?_, by decide, by decide⟩
  · simp only [getTasksFromDatabase, List.length_take]
    exact Nat.min_le_left _ _
  · exact hsorted.sublist (List.take_sublist 100 _)
  · intro hdist
    have hperm := List.perm_insertionSort createdDesc
      (tableCreationIfDoesNotExist db).rows
    have hne : (List.insertionSort createdDesc
        (tableCreationIfDoesNotExist db).rows).Pairwise
        (fun a b => a.created_at ≠ b.created_at) :=
      (hperm.pairwise_iff (fun h => h.symm)).mpr hdist
    have hstrict := (hsorted.and hne).imp
      (fun hab => lt_of_le_of_ne hab.1 (Ne.symm hab.2))
    exact hstrict.sublist (List.take_sublist 100 _)

set_option maxRecDepth 10000 in
/-- C1 witness: the cap and order statement instantiated at a concrete
store whose created_at values are pairwise distinct, with the
distinctness premise of the strict-order part discharged there. -/
theorem listTasks_cap_and_order_witness :
    (getTasksFromDatabase (some sampleTable)).2.length ≤ 100 ∧
    (getTasksFromDatabase (some sampleTable)).2.Pairwise
      (fun a b => b.created_at ≤ a.created_at) ∧
    (tableCreationIfDoesNotExist (some sampleTable)).rows.Pairwise
      (fun a b => a.created_at ≠ b.created_at) ∧
    (getTasksFromDatabase (some sampleTable)).2.Pairwise
      (fun a b => b.created_at < a.created_at) ∧
    (getTasksFromDatabase (some (addNTasks 150))).2 =
      (List.range 100).map (fun i =>
        { id := 150 - i, created_at := 149 - i,
          status := "IN_PROGRESS", title := "" }) ∧
    (addNTasks 150).rows.length = 150 :=
  have h := listTasks_cap_and_order (some sampleTable)
  ⟨h.1, h.2.1, by decide, h.2.2.1 (by decide), h.2.2.2.1, h.2.2.2.2⟩

/-- C2: for a Task value within the bounded title length, updateTask
succeeds with no error, keeps the SERIAL sequence and the row count,
and rewrites the rows pointwise: every row keeps its id and created_at,
a row whose id differs from the target id is unchanged, and a row whose
id is the target id gets exactly the new status and title. -/
theorem updateTask_frame (task : Task) (db : Option Table)
    (hlen : task.title.length ≤ 1024) :
    (updateTaskInDatabase task db).2 = none ∧
    (updateTaskInDatabase task db).1.nextId =
      (tableCreationIfDoesNotExist db).nextId ∧
    (updateTaskInDatabase task db).1.rows.length =
      (tableCreationIfDoesNotExist db).rows.length ∧
    ∀ i : Fin (tableCreationIfDoesNotExist db).rows.length,
      ∀ j : Fin (updateTaskInDatabase task db).1.rows.length, (i : Nat) = (j : Nat) →
        ((updateTaskInDatabase task db).1.rows.get j).id =
          ((tableCreationIfDoesNotExist db).rows.get i).id ∧
        ((updateTaskInDatabase task db).1.rows.get j).created_at =
          ((tableCreationIfDoesNotExist db).rows.get i).created_at ∧
        (((tableCreationIfDoesNotExist db).rows.get i).id ≠ task.id →
          (updateTaskInDatabase task db).1.rows.get j =
            (tableCreationIfDoesNotExist db).rows.get i) ∧
        (((tableCreationIfDoesNotExist db).rows.get i).id = task.id →
          ((updateTaskInDatabase task db).1.rows.get j).status =
            task.status.toDbString ∧
          ((updateTaskInDatabase task db).1.rows.get j).title = task.title) := by
  have hcond : ¬((tableCreationIfDoesNotExist db).rows.any
      (fun r => r.id == task.id) ∧ 1024 < task.title.length) := by
    rintro ⟨-, h⟩
    omega
  have key : updateTaskInDatabase task db =
      ({ rows := (tableCreationIfDoesNotExist db).rows.map (fun r =>
            if r.id = task.id then
              { r with status := task.status.toDbString, title := task.title }
            else r),
         nextId := (tableCreationIfDoesNotExist db).nextId }, none) := by
    simp only [updateTaskInDatabase]
    rw [if_neg hcond]
  rw [key]
  refine ⟨rfl, rfl, by simp, ?_⟩
  rintro ⟨i, hi⟩ ⟨j, hj⟩ hij
  simp only at hij
  subst hij
  simp only [List.get_eq_getElem, List.getElem_map]
  by_cases hid : ((tableCreationIfDoesNotExist db).rows[i]).id = task.id
  · simp [hid]
  · simp [hid]

/-- C2 witness: the frame statement instantiated at the sample store
and a concrete in-bounds Task value. -/
theorem updateTask_frame_witness :
    sampleUpdate.title.length ≤ 1024 ∧
    ((updateTaskInDatabase sampleUpdate (some sampleTable)).2 = none ∧
     (updateTaskInDatabase sampleUpdate (some sampleTable)).1.nextId =
       (tableCreationIfDoesNotExist (some sampleTable)).nextId ∧
     (updateTaskInDatabase sampleUpdate (some sampleTable)).1.rows.length =
       (tableCreationIfDoesNotExist (some sampleTable)).rows.length ∧
     ∀ i : Fin (tableCreationIfDoesNotExist (some sampleTable)).rows.length,
       ∀ j : Fin (updateTaskInDatabase sampleUpdate (some sampleTable)).1.rows.length,
         (i : Nat) = (j : Nat) →
         ((updateTaskInDatabase sampleUpdate (some sampleTable)).1.rows.get j).id =
           ((tableCreationIfDoesNotExist (some sampleTable)).rows.get i).id ∧
         ((updateTaskInDatabase sampleUpdate (some sampleTable)).1.rows.get j).created_at =
           ((tableCreationIfDoesNotExist (some sampleTable)).rows.get i).created_at ∧
         (((tableCreationIfDoesNotExist (some sampleTable)).rows.get i).id ≠ sampleUpdate.id →
           (updateTaskInDatabase sampleUpdate (some sampleTable)).1.rows.get j =
             (tableCreationIfDoesNotExist (some sampleTable)).rows.get i) ∧
         (((tableCreationIfDoesNotExist (some sampleTable)).rows.get i).id = sampleUpdate.id →
           ((updateTaskInDatabase sampleUpdate (some sampleTable)).1.rows.get j).status =
             sampleUpdate.status.toDbString ∧
           ((updateTaskInDatabase sampleUpdate (some sampleTable)).1.rows.get j).title =
             sampleUpdate.title)) :=
  ⟨by decide, updateTask_frame sampleUpdate (some sampleTable) (by decide)⟩

/-- Sorting by ORDER BY created_at DESC puts a strictly most recent row
at the head. -/
lemma head_insertionSort_of_max (l : List Row) (r : Row)
    (hmax : ∀ x ∈ l, x.created_at < r.created_at) :
    (List.insertionSort createdDesc (l ++ [r])).head? = some r := by
  have hperm := List.perm_insertionSort createdDesc (l ++ [r])
  have hsorted := List.sorted_insertionSort createdDesc (l ++ [r])
  have hmem : r ∈ List.insertionSort createdDesc (l ++ [r]) :=
    hperm.mem_iff.mpr (by simp)
  cases hs : List.insertionSort createdDesc (l ++ [r]) with
  | nil => rw [hs] at hmem; simp at hmem
  | cons h tl =>
    rw [hs] at hmem hperm hsorted
    rcases List.mem_append.mp (hperm.mem_iff.mp (List.mem_cons_self h tl)) with hL | hR
    · exfalso
      have hlt := hmax h hL
      rcases List.mem_cons.mp hmem with he | htl
      · rw [he] at hlt
        exact Nat.lt_irrefl _ hlt
      · have hle : createdDesc h r := List.rel_of_sorted_cons hsorted r htl
        have : r.created_at ≤ h.created_at := hle
        omega
    · rw [List.mem_singleton.mp hR]
      rfl

/-- C3: addTask(title) with a title inside the store's bounded length
reports no error and, on every store state, appends exactly one row
whose created_at is the current server time, whose status is
IN_PROGRESS and whose title is the given string (the id being the
SERIAL value); and whenever every existing row is strictly older — the
new row being the most recent — a subsequent listTasks() returns it at
the head. -/
theorem addTask_inserts_defaults (title : String) (now : Nat) (db : Option Table)
    (hlen : title.length ≤ 1024) :
    (addNewTaskToDatabase title now db).2 = none ∧
    (addNewTaskToDatabase title now db).1.rows =
      (tableCreationIfDoesNotExist db).rows ++
        [{ id := (tableCreationIfDoesNotExist db).nextId, created_at := now,
           status := "IN_PROGRESS", title := title }] ∧
    (addNewTaskToDatabase title now db).1.nextId =
      (tableCreationIfDoesNotExist db).nextId + 1 ∧
    ((∀ r ∈ (tableCreationIfDoesNotExist db).rows, r.created_at < now) →
      (getTasksFromDatabase (some (addNewTaskToDatabase title now db).1)).2.head? =
        some { id := (tableCreationIfDoesNotExist db).nextId, created_at := now,
               status := "IN_PROGRESS", title := title }) := by
  have key : addNewTaskToDatabase title now db =
      ({ rows := (tableCreationIfDoesNotExist db).rows ++
          [{ id := (tableCreationIfDoesNotExist db).nextId, created_at := now,
             status := "IN_PROGRESS", title := title }],
         nextId := (tableCreationIfDoesNotExist db).nextId + 1 }, none) := by
    simp only [addNewTaskToDatabase]
    rw [if_pos hlen]
  rw [key]
  refine ⟨rfl, rfl, rfl, ?_⟩
  intro hrecent
  simp only [getTasksFromDatabase]
  rw [show ∀ t : Table, tableCreationIfDoesNotExist (some t) = t from fun _ => rfl]
  have hh := head_insertionSort_of_max (tableCreationIfDoesNotExist db).rows
    { id := (tableCreationIfDoesNotExist db).nextId, created_at := now,
      status := "IN_PROGRESS", title := title } hrecent
  cases hs : List.insertionSort createdDesc
      ((tableCreationIfDoesNotExist db).rows ++
        [{ id := (tableCreationIfDoesNotExist db).nextId, created_at := now,
           status := "IN_PROGRESS", title := title }]) with
  | nil => rw [hs] at hh; simp at hh
  | cons h tl =>
    rw [hs] at hh
    simp only [List.head?_cons, Option.some.injEq] at hh
    rw [hh]
    rfl

/-- C3 witness: inserting a task titled Buy milk at a time later than
every stored row of the sample store, with both the length premise and
the most-recent premise discharged there. -/
theorem addTask_inserts_defaults_witness :
    ("Buy milk".length ≤ 1024 ∧
      ∀ r ∈ (tableCreationIfDoesNotExist (some sampleTable)).rows,
        r.created_at < 10) ∧
    ((addNewTaskToDatabase "Buy milk" 10 (some sampleTable)).2 = none ∧
     (addNewTaskToDatabase "Buy milk" 10 (some sampleTable)).1.rows =
       (tableCreationIfDoesNotExist (some sampleTable)).rows ++
         [{ id := (tableCreationIfDoesNotExist (some sampleTable)).nextId,
            created_at := 10, status := "IN_PROGRESS", title := "Buy milk" }] ∧
     (addNewTaskToDatabase "Buy milk" 10 (some sampleTable)).1.nextId =
       (tableCreationIfDoesNotExist (some sampleTable)).nextId + 1 ∧
     (getTasksFromDatabase
         (some (addNewTaskToDatabase "Buy milk" 10 (some sampleTable)).1)).2.head? =
       some { id := (tableCreationIfDoesNotExist (some sampleTable)).nextId,
              created_at := 10, status := "IN_PROGRESS", title := "Buy milk" }) :=
  have h := addTask_inserts_defaults "Buy milk" 10 (some sampleTable) (by decide)
  ⟨⟨by decide, by decide⟩, h.1, h.2.1, h.2.2.1, h.2.2.2 (by decide)⟩

/-- C4: a mutation aimed at an id that matches no stored row reports no
error and returns the store unchanged, for updateTask (with any status
and title) and for deleteTask alike. -/
theorem unknown_id_mutation_noop (task : Task) (db : Option Table)
    (h : ∀ r ∈ (tableCreationIfDoesNotExist db).rows, r.id ≠ task.id) :
    updateTaskInDatabase task db = (tableCreationIfDoesNotExist db, none) ∧
    deleteTaskFromDatabase task.id db = tableCreationIfDoesNotExist db := by
  constructor
  · have hany : ((tableCreationIfDoesNotExist db).rows.any
        (fun r => r.id == task.id)) = false := by
      rw [List.any_eq_false]
      intro r hr
      simpa using h r hr
    have hcond : ¬(((tableCreationIfDoesNotExist db).rows.any
        (fun r => r.id == task.id)) ∧ 1024 < task.title.length) := by
      rintro ⟨hc, -⟩
      rw [hany] at hc
      exact Bool.false_ne_true hc
    simp only [updateTaskInDatabase]
    rw [if_neg hcond]
    have hmap : (tableCreationIfDoesNotExist db).rows.map (fun r =>
        if r.id = task.id then
          { r with status := task.status.toDbString, title := task.title }
        else r) = (tableCreationIfDoesNotExist db).rows := by
      have h2 : ∀ r ∈ (tableCreationIfDoesNotExist db).rows,
          (fun x : Row => if x.id = task.id then
            { x with status := task.status.toDbString, title := task.title }
          else x) r = id r := fun r hr => if_neg (h r hr)
      rw [List.map_congr_left h2, List.map_id]
    rw [hmap]
  · have hfil : (tableCreationIfDoesNotExist db).rows.filter
        (fun r => r.id ≠ task.id) = (tableCreationIfDoesNotExist db).rows := by
      rw [List.filter_eq_self]
      intro r hr
      simpa using h r hr
    simp only [deleteTaskFromDatabase]
    rw [hfil]

/-- C4 witness: mutating id 99, which is absent from the sample store. -/
theorem unknown_id_mutation_noop_witness :
    (∀ r ∈ (tableCreationIfDoesNotExist (some sampleTable)).rows,
      r.id ≠ ({ id := 99, title := "T", status := .COMPLETE : Task }).id) ∧
    (updateTaskInDatabase { id := 99, title := "T", status := .COMPLETE }
        (some sampleTable) =
      (tableCreationIfDoesNotExist (some sampleTable), none) ∧
     deleteTaskFromDatabase ({ id := 99, title := "T", status := .COMPLETE : Task }).id
        (some sampleTable) =
      tableCreationIfDoesNotExist (some sampleTable)) :=
  ⟨by decide, unknown_id_mutation_noop { id := 99, title := "T", status := .COMPLETE }
    (some sampleTable) (by decide)⟩

/-- C5: deleteTask removes exactly the rows bearing the given id — a
row survives exactly when it was stored and its id differs — leaves the
SERIAL sequence alone, and is idempotent: deleting the same id again
succeeds and changes nothing. -/
theorem deleteTask_exact_idempotent (taskId : Nat) (db : Option Table) :
    (deleteTaskFromDatabase taskId db).nextId =
      (tableCreationIfDoesNotExist db).nextId ∧
    (∀ r : Row, r ∈ (deleteTaskFromDatabase taskId db).rows ↔
      r ∈ (tableCreationIfDoesNotExist db).rows ∧ r.id ≠ taskId) ∧
    deleteTaskFromDatabase taskId (some (deleteTaskFromDatabase taskId db)) =
      deleteTaskFromDatabase taskId db := by
  refine ⟨rfl, ?_, ?_⟩
  · intro r
    simp [deleteTaskFromDatabase, List.mem_filter]
  · have hfil : (deleteTaskFromDatabase taskId db).rows.filter
        (fun r => r.id ≠ taskId) = (deleteTaskFromDatabase taskId db).rows := by
      rw [List.filter_eq_self]
      intro r hr
      exact (List.mem_filter.mp hr).2
    show ({ deleteTaskFromDatabase taskId db with
      rows := (deleteTaskFromDatabase taskId db).rows.filter
        (fun r => r.id ≠ taskId) } : Table) = deleteTaskFromDatabase taskId db
    rw [hfil]

/-- C6: CREATE TABLE IF NOT EXISTS is idempotent — run on an existing
store it returns it unchanged, rows included — and every one of the
four operations begins with it: each operation is insensitive to an
extra schema-ensuring step run before it, so interleaving ensureSchema
anywhere never alters any result. -/
theorem ensureSchema_idempotent_prefixed (db : Option Table) (t : Table)
    (s : String) (now : Nat) (task : Task) (i : Nat) :
    tableCreationIfDoesNotExist (some (tableCreationIfDoesNotExist db)) =
      tableCreationIfDoesNotExist db ∧
    tableCreationIfDoesNotExist (some t) = t ∧
    (tableCreationIfDoesNotExist (some t)).rows = t.rows ∧
    addNewTaskToDatabase s now (some (tableCreationIfDoesNotExist db)) =
      addNewTaskToDatabase s now db ∧
    getTasksFromDatabase (some (tableCreationIfDoesNotExist db)) =
      getTasksFromDatabase db ∧
    updateTaskInDatabase task (some (tableCreationIfDoesNotExist db)) =
      updateTaskInDatabase task db ∧
    deleteTaskFromDatabase i (some (tableCreationIfDoesNotExist db)) =
      deleteTaskFromDatabase i db :=
  ⟨rfl, rfl, rfl, rfl, rfl, rfl, rfl⟩

/-- The row rewrite performed by UPDATE keeps the id column. -/
lemma updRow_id (task : Task) (a : Row) :
    (if a.id = task.id then
      { a with status := task.status.toDbString, title := task.title }
    else a).id = a.id := by
  by_cases h : a.id = task.id <;> simp [h]

/-- Every operation preserves the id discipline of the store. -/
lemma tableInv_applyOp (op : Op) (db : Option Table)
    (h : TableInv (tableCreationIfDoesNotExist db)) : TableInv (applyOp op db) := by
  obtain ⟨hb, hp⟩ := h
  cases op with
  | add title now =>
    simp only [applyOp, addNewTaskToDatabase]
    split
    · constructor
      · intro r hr
        simp only [List.mem_append, List.mem_singleton] at hr
        rcases hr with hr | hr
        · exact Nat.lt_succ_of_lt (hb r hr)
        · rw [hr]
          exact Nat.lt_succ_self _
      · dsimp only
        rw [List.pairwise_append]
        refine ⟨hp, List.pairwise_singleton _ _, ?_⟩
        intro a ha b hbm
        rw [List.mem_singleton.mp hbm]
        exact hb a ha
    · exact ⟨hb, hp⟩
  | list => exact ⟨hb, hp⟩
  | update task =>
    simp only [applyOp, updateTaskInDatabase]
    split
    · exact ⟨hb, hp⟩
    · constructor
      · intro r hr
        dsimp only at hr
        rcases List.mem_map.mp hr with ⟨a, ha, rfl⟩
        rw [updRow_id]
        exact hb a ha
      · dsimp only
        rw [List.pairwise_map]
        refine hp.imp ?_
        intro a b hab
        rw [updRow_id, updRow_id]
        exact hab
  | delete i =>
    constructor
    · intro r hr
      exact hb r (List.mem_filter.mp hr).1
    · exact List.Pairwise.sublist (List.filter_sublist _) hp

/-- The table at the start of a run (no table yet) satisfies the id
discipline. -/
lemma tableInv_start : TableInv (tableCreationIfDoesNotExist none) :=
  ⟨fun r hr => absurd hr (List.not_mem_nil r), List.Pairwise.nil⟩

/-- The id discipline holds after any sequence of operations. -/
lemma tableInv_runOps (ops : List Op) (db : Option Table)
    (h : TableInv (tableCreationIfDoesNotExist db)) : TableInv (runOps ops db) := by
  induction ops generalizing db with
  | nil => exact h
  | cons op ops ih => exact ih (some (applyOp op db)) (tableInv_applyOp op db h)

/-- Each operation leaves the SERIAL sequence where it is or advances
it; it never decreases. -/
lemma nextId_mono_applyOp (op : Op) (db : Option Table) :
    (tableCreationIfDoesNotExist db).nextId ≤ (applyOp op db).nextId := by
  cases op with
  | add title now =>
    simp only [applyOp, addNewTaskToDatabase]
    split
    · exact Nat.le_succ _
    · exact Nat.le_refl _
  | list => exact Nat.le_refl _
  | update task =>
    simp only [applyOp, updateTaskInDatabase]
    split
    · exact Nat.le_refl _
    · exact Nat.le_refl _
  | delete i => exact Nat.le_refl _

/-- If after one operation a row carries an id below the sequence value
the operation started from, then a row with that id was already there:
one operation never resurrects an id from below the sequence. -/
lemma applyOp_old_id (op : Op) (db : Option Table) (r : Row)
    (hr : r ∈ (applyOp op db).rows)
    (hlt : r.id < (tableCreationIfDoesNotExist db).nextId) :
    ∃ r0 ∈ (tableCreationIfDoesNotExist db).rows, r0.id = r.id := by
  cases op with
  | add title now =>
    simp only [applyOp, addNewTaskToDatabase] at hr
    split at hr
    · simp only [List.mem_append, List.mem_singleton] at hr
      rcases hr with hr | hr
      · exact ⟨r, hr, rfl⟩
      · rw [hr] at hlt
        exact absurd hlt (Nat.lt_irrefl _)
    · exact ⟨r, hr, rfl⟩
  | list => exact ⟨r, hr, rfl⟩
  | update task =>
    simp only [applyOp, updateTaskInDatabase] at hr
    split at hr
    · exact ⟨r, hr, rfl⟩
    · dsimp only at hr
      rcases List.mem_map.mp hr with ⟨a, ha, rfl⟩
      exact ⟨a, ha, (updRow_id task a).symm⟩
  | delete i => exact ⟨r, (List.mem_filter.mp hr).1, rfl⟩

/-- Across any whole sequence of operations, a row id below a bound
that was at or below the sequence value at the start can only belong to
an id that already had a row at the start. -/
lemma runOps_old_id (ops : List Op) (db : Option Table) (n : Nat)
    (hn : n ≤ (tableCreationIfDoesNotExist db).nextId) :
    ∀ r ∈ (runOps ops db).rows, r.id < n →
      ∃ r0 ∈ (tableCreationIfDoesNotExist db).rows, r0.id = r.id := by
  induction ops generalizing db with
  | nil => exact fun r hr _ => ⟨r, hr, rfl⟩
  | cons op ops ih =>
    intro r hr hlt
    obtain ⟨r0, hr0, hid0⟩ :=
      ih (some (applyOp op db)) (Nat.le_trans hn (nextId_mono_applyOp op db)) r hr hlt
    obtain ⟨r1, hr1, hid1⟩ := applyOp_old_id op db r0 hr0 (by omega)
    exact ⟨r1, hr1, hid1.trans hid0⟩

/-- Running after an explicit schema-ensuring step is the same run. -/
lemma runOps_ensure (ops : List Op) (db : Option Table) :
    runOps ops (some (tableCreationIfDoesNotExist db)) = runOps ops db := by
  cases ops with
  | nil => rfl
  | cons op ops => rfl

/-- A run splits at any point into the run so far and the rest started
on its result. -/
lemma runOps_append (ops1 ops2 : List Op) (db : Option Table) :
    runOps (ops1 ++ ops2) db = runOps ops2 (some (runOps ops1 db)) := by
  induction ops1 generalizing db with
  | nil =>
    show runOps ops2 db = runOps ops2 (some (tableCreationIfDoesNotExist db))
    exact (runOps_ensure ops2 db).symm
  | cons op ops1 ih =>
    show runOps (ops1 ++ ops2) (some (applyOp op db)) =
      runOps ops2 (some (runOps ops1 (some (applyOp op db))))
    exact ih (some (applyOp op db))

/-- C7: across every sequence of operations started on an absent store,
row ids are strictly increasing in creation order, hence pairwise
distinct (never duplicated), and always below the store-owned SERIAL
sequence, which never decreases; an id is never reused, even after
deletion: splitting any run anywhere, a row of the final table whose id
is below the split point's sequence value is an id that still had a row
at the split point, so an id deleted by then never reappears; and
updateTask never changes any row's id. -/
theorem ids_unique_monotone_immutable (ops : List Op) (op : Op) (t : Table)
    (task : Task) (db : Option Table) :
    (runOps ops none).rows.Pairwise (fun a b => a.id < b.id) ∧
    ((runOps ops none).rows.map Row.id).Nodup ∧
    (∀ r ∈ (runOps ops none).rows, r.id < (runOps ops none).nextId) ∧
    t.nextId ≤ (applyOp op (some t)).nextId ∧
    (∀ ops1 ops2 : List Op, ∀ r ∈ (runOps (ops1 ++ ops2) none).rows,
      r.id < (runOps ops1 none).nextId →
        ∃ r0 ∈ (runOps ops1 none).rows, r0.id = r.id) ∧
    (updateTaskInDatabase task db).1.rows.map Row.id =
      (tableCreationIfDoesNotExist db).rows.map Row.id := by
  obtain ⟨hb, hp⟩ := tableInv_runOps ops none tableInv_start
  refine ⟨hp, ?_, hb, nextId_mono_applyOp op (some t), ?_, ?_⟩
  · exact List.pairwise_map.mpr (hp.imp fun hab => Nat.ne_of_lt hab)
  · intro ops1 ops2 r hr hlt
    rw [runOps_append] at hr
    exact runOps_old_id ops2 (some (runOps ops1 none)) (runOps ops1 none).nextId
      (Nat.le_refl _) r hr hlt
  · simp only [updateTaskInDatabase]
    split
    · rfl
    · dsimp only
      rw [List.map_map]
      exact List.map_congr_left fun a _ => updRow_id task a

/-- Every operation preserves the two-value status discipline. -/
lemma statusOk_applyOp (op : Op) (db : Option Table)
    (h : statusOk (tableCreationIfDoesNotExist db)) : statusOk (applyOp op db) := by
  cases op with
  | add title now =>
    simp only [applyOp, addNewTaskToDatabase]
    split
    · intro r hr
      simp only [List.mem_append, List.mem_singleton] at hr
      rcases hr with hr | hr
      · exact h r hr
      · rw [hr]
        left
        rfl
    · exact h
  | list => exact h
  | update task =>
    simp only [applyOp, updateTaskInDatabase]
    split
    · exact h
    · intro r hr
      dsimp only at hr
      rcases List.mem_map.mp hr with ⟨a, ha, rfl⟩
      by_cases h2 : a.id = task.id
      · rw [if_pos h2]
        cases task.status
        · left
          rfl
        · right
          rfl
      · rw [if_neg h2]
        exact h a ha
  | delete i =>
    intro r hr
    exact h r (List.mem_filter.mp hr).1

/-- The status discipline holds at the start of a run. -/
lemma statusOk_start : statusOk (tableCreationIfDoesNotExist none) :=
  fun r hr => absurd hr (List.not_mem_nil r)

/-- The status discipline holds after any sequence of operations. -/
lemma statusOk_runOps (ops : List Op) (db : Option Table)
    (h : statusOk (tableCreationIfDoesNotExist db)) : statusOk (runOps ops db) := by
  induction ops generalizing db with
  | nil => exact h
  | cons op ops ih => exact ih (some (applyOp op db)) (statusOk_applyOp op db h)

/-- C8: after every sequence of operations started on an absent store,
every stored row's status is one of the two enumeration values
IN_PROGRESS and COMPLETE (creation writes the default IN_PROGRESS, and
update can only write the rendering of the two-value Status type);
titles and statuses are total string columns, never absent. -/
theorem status_enumeration_invariant (ops : List Op) :
    statusOk (runOps ops none) :=
  statusOk_runOps ops none statusOk_start

/-- C9: each user action of the page is a two-step sequence, mutation
first, then an unconditional full re-fetch, with no step reordered.
When the insert succeeds, the submit handler's trace has exactly three
points: the store already holds the completed insert at every point,
the input field still holds the submitted title at both points before
the clearing step, and the final point — the only one whose input field
is cleared — carries the freshly re-fetched list.  When the insert is
rejected by the store the handler aborts at that await: the trace stops
there, no re-fetch happens and the input field is never cleared.  In
every case a point with a cleared input field can only follow a
confirmed insert and a completed re-fetch.  The update handler likewise
first completes its mutation, aborting on a store error, and only then
replaces the displayed tasks by the full re-fetched list; the delete
handler is the same two steps. -/
theorem handlers_mutate_then_refetch (c : ClientState) (db : Option Table)
    (now : Nat) (task : Task) (taskId : Nat) (hnz : c.newTaskTitle ≠ "") :
    ((addNewTaskToDatabase c.newTaskTitle now db).2 = none →
      (handleSubmitTrace c db now).length = 3 ∧
      (∀ p ∈ (handleSubmitTrace c db now).take 2,
        p.1.newTaskTitle = c.newTaskTitle ∧ p.1.newTaskTitle ≠ "" ∧
        p.2 = (addNewTaskToDatabase c.newTaskTitle now db).1) ∧
      (handleSubmitTrace c db now).getLast? = some
        ({ newTaskTitle := "",
           tasks := (getTasksFromDatabase
             (some (addNewTaskToDatabase c.newTaskTitle now db).1)).2 },
         (addNewTaskToDatabase c.newTaskTitle now db).1)) ∧
    ((addNewTaskToDatabase c.newTaskTitle now db).2 ≠ none →
      handleSubmitTrace c db now =
        [(c, (addNewTaskToDatabase c.newTaskTitle now db).1)]) ∧
    (∀ p ∈ handleSubmitTrace c db now, p.1.newTaskTitle = "" →
      (addNewTaskToDatabase c.newTaskTitle now db).2 = none ∧
      p.1.tasks = (getTasksFromDatabase
        (some (addNewTaskToDatabase c.newTaskTitle now db).1)).2) ∧
    ((updateTaskInDatabase task db).2 = none →
      updateTaskHandlerTrace c task db =
        [(c, (updateTaskInDatabase task db).1),
         ({ c with tasks :=
             (getTasksFromDatabase (some (updateTaskInDatabase task db).1)).2 },
          (updateTaskInDatabase task db).1)]) ∧
    ((updateTaskInDatabase task db).2 ≠ none →
      updateTaskHandlerTrace c task db =
        [(c, (updateTaskInDatabase task db).1)]) ∧
    deleteTaskHandlerTrace c taskId db =
      [(c, deleteTaskFromDatabase taskId db),
       ({ c with tasks :=
           (getTasksFromDatabase (some (deleteTaskFromDatabase taskId db))).2 },
        deleteTaskFromDatabase taskId db)] := by
  rcases hadd : addNewTaskToDatabase c.newTaskTitle now db with ⟨s1, err⟩
  have hsub : handleSubmitTrace c db now =
      match (s1, err) with
      | (s1, some _) => [(c, s1)]
      | (s1, none) =>
          [(c, s1),
           ({ newTaskTitle := c.newTaskTitle,
              tasks := (getTasksFromDatabase (some s1)).2 },
            (getTasksFromDatabase (some s1)).1),
           ({ newTaskTitle := "",
              tasks := (getTasksFromDatabase (some s1)).2 },
            (getTasksFromDatabase (some s1)).1)] := by
    simp only [handleSubmitTrace, hadd]
  rcases hupd : updateTaskInDatabase task db with ⟨u1, uerr⟩
  have hupdt : updateTaskHandlerTrace c task db =
      match (u1, uerr) with
      | (u1, some _) => [(c, u1)]
      | (u1, none) =>
          [(c, u1),
           ({ c with tasks := (getTasksFromDatabase (some u1)).2 },
            (getTasksFromDatabase (some u1)).1)] := by
    simp only [updateTaskHandlerTrace, hupd]
  refine ⟨?_, ?_, ?_, ?_, ?_, rfl⟩
  · intro hok
    simp only at hok
    subst hok
    simp only at hsub
    rw [hsub]
    refine ⟨rfl, ?_, rfl⟩
    intro p hp
    simp only [List.take_succ_cons, List.take_zero, List.mem_cons,
      List.not_mem_nil, or_false] at hp
    rcases hp with hp | hp <;> rw [hp] <;> exact ⟨rfl, hnz, rfl⟩
  · intro hbad
    simp only at hbad
    cases err with
    | none => exact absurd rfl hbad
    | some e =>
      simp only at hsub
      rw [hsub]
  · intro p hp hclear
    cases err with
    | none =>
      simp only at hsub
      rw [hsub] at hp
      simp only [List.mem_cons, List.not_mem_nil, or_false] at hp
      rcases hp with hp | hp | hp <;> rw [hp] at hclear ⊢
      · exact absurd hclear hnz
      · exact absurd hclear hnz
      · exact ⟨rfl, rfl⟩
    | some e =>
      simp only at hsub
      rw [hsub] at hp
      simp only [List.mem_cons, List.not_mem_nil, or_false] at hp
      rw [hp] at hclear
      exact absurd hclear hnz
  · intro hok
    simp only at hok
    subst hok
    simp only at hupdt
    rw [hupdt]
    rfl
  · intro hbad
    simp only at hbad
    cases uerr with
    | none => exact absurd rfl hbad
    | some e =>
      simp only at hupdt
      rw [hupdt]

/-- C9 witness: the handler statement at a concrete client state with a
nonempty input field, with the success premises of the inner parts
discharged there. -/
theorem handlers_mutate_then_refetch_witness :
    (({ newTaskTitle := "x", tasks := [] } : ClientState).newTaskTitle ≠ "") ∧
    ((addNewTaskToDatabase "x" 5 none).2 = none) ∧
    ((handleSubmitTrace { newTaskTitle := "x", tasks := [] } none 5).length = 3 ∧
     (∀ p ∈ (handleSubmitTrace { newTaskTitle := "x", tasks := [] } none 5).take 2,
       p.1.newTaskTitle =
         ({ newTaskTitle := "x", tasks := [] } : ClientState).newTaskTitle ∧
       p.1.newTaskTitle ≠ "" ∧
       p.2 = (addNewTaskToDatabase
         ({ newTaskTitle := "x", tasks := [] } : ClientState).newTaskTitle 5 none).1) ∧
     (handleSubmitTrace { newTaskTitle := "x", tasks := [] } none 5).getLast? = some
       ({ newTaskTitle := "",
          tasks := (getTasksFromDatabase
            (some (addNewTaskToDatabase
              ({ newTaskTitle := "x", tasks := [] } : ClientState).newTaskTitle
              5 none).1)).2 },
        (addNewTaskToDatabase
          ({ newTaskTitle := "x", tasks := [] } : ClientState).newTaskTitle
          5 none).1)) ∧
    ((updateTaskInDatabase sampleUpdate none).2 = none) ∧
    (updateTaskHandlerTrace { newTaskTitle := "x", tasks := [] } sampleUpdate none =
      [({ newTaskTitle := "x", tasks := [] },
        (updateTaskInDatabase sampleUpdate none).1),
       ({ ({ newTaskTitle := "x", tasks := [] } : ClientState) with tasks :=
           (getTasksFromDatabase (some (updateTaskInDatabase sampleUpdate none).1)).2 },
        (updateTaskInDatabase sampleUpdate none).1)]) ∧
    (deleteTaskHandlerTrace { newTaskTitle := "x", tasks := [] } 1 none =
      [({ newTaskTitle := "x", tasks := [] }, deleteTaskFromDatabase 1 none),
       ({ ({ newTaskTitle := "x", tasks := [] } : ClientState) with tasks :=
           (getTasksFromDatabase (some (deleteTaskFromDatabase 1 none))).2 },
        deleteTaskFromDatabase 1 none)]) :=
  have h := handlers_mutate_then_refetch { newTaskTitle := "x", tasks := [] }
    none 5 sampleUpdate 1 (by decide)
  ⟨by decide, by decide, h.1 (by decide), by decide, h.2.2.2.1 (by decide),
    h.2.2.2.2.2⟩

/-- C10: the title bound left open by the spec is exactly the
VARCHAR(1024) of the table definition: an insert with a title of at
most 1024 characters succeeds and appends its row, and one with a
longer title fails with the store's length error, leaving the table
unchanged. -/
theorem addTask_title_bound (title : String) (now : Nat) (db : Option Table) :
    (title.length ≤ 1024 →
      (addNewTaskToDatabase title now db).2 = none ∧
      (addNewTaskToDatabase title now db).1.rows =
        (tableCreationIfDoesNotExist db).rows ++
          [{ id := (tableCreationIfDoesNotExist db).nextId, created_at := now,
             status := "IN_PROGRESS", title := title }]) ∧
    (1024 < title.length →
      (addNewTaskToDatabase title now db).2 = some varcharError ∧
      (addNewTaskToDatabase title now db).1 = tableCreationIfDoesNotExist db) := by
  constructor
  · intro hlen
    simp only [addNewTaskToDatabase]
    rw [if_pos hlen]
    exact ⟨rfl, rfl⟩
  · intro hlen
    have hnot : ¬title.length ≤ 1024 := by omega
    simp only [addNewTaskToDatabase]
    rw [if_neg hnot]
    exact ⟨rfl, rfl⟩

/-- The oversized sample title really exceeds 1024 characters. -/
lemma longTitle_big : 1024 < longTitle.length := by
  show 1024 < (String.mk (List.replicate 1025 (Char.ofNat 97))).length
  rw [String.length_mk, List.length_replicate]
  omega

/-- C10 witness: a 1025-character title is rejected and leaves the
store unchanged, while an ordinary title is accepted. -/
theorem addTask_title_bound_witness :
    (1024 < longTitle.length) ∧
    ((addNewTaskToDatabase longTitle 7 none).2 = some varcharError ∧
     (addNewTaskToDatabase longTitle 7 none).1 = tableCreationIfDoesNotExist none) ∧
    ("Buy milk".length ≤ 1024) ∧
    ((addNewTaskToDatabase "Buy milk" 7 none).2 = none ∧
     (addNewTaskToDatabase "Buy milk" 7 none).1.rows =
       (tableCreationIfDoesNotExist none).rows ++
         [{ id := (tableCreationIfDoesNotExist none).nextId, created_at := 7,
            status := "IN_PROGRESS", title := "Buy milk" }]) :=
  ⟨longTitle_big,
   (addTask_title_bound longTitle 7 none).2 longTitle_big,
   by decide,
   (addTask_title_bound "Buy milk" 7 none).1 (by decide)⟩

end App
